import Mathlib

/-!
Shallow embedding of `src/runtime/browser/android/xwalk_contents_io_thread_client.cc`
(the cross-thread frame-to-delegate association registry of the Crosswalk runtime).

Modelling choices:
  * `std::map` becomes an association list with `mapFind` / `mapInsert` /
    `mapErase` mirroring `find`, `operator[]` assignment and `erase(key)`.
  * `base::flat_set<RenderFrameHost*>` becomes a `List Nat` of frame pointers
    with `setInsert` / `setRemove` mirroring `insert` and `erase`.
  * A `RenderFrameHost*` is a record carrying its pointer value, its
    process id, its routing id and its frame-tree-node id; the accessors
    `GetProcess()->GetID()`, `GetRoutingID()` and `GetFrameTreeNodeId()` are
    field projections.
  * `JavaObjectWeakGlobalRef` becomes `Option Nat` (the referent object id);
    resolving the weak reference (`get(env)`) takes the list of still-alive
    Java objects, so a collected delegate resolves to `none`.
  * The opaque Java delegate is a table of answers (`DelegateBehavior`)
    indexed by object id; request and response objects are opaque ids.
  * Every registry method of the source holds the single `map_lock_` for its
    whole body, so each method is one atomic state transition; concurrent
    histories are modelled as lists of such transitions, and an observer can
    only see the state after a whole number of completed transitions.
-/

set_option maxHeartbeats 1000000

/-- Association-list lookup, modelling `std::map::find` (keys are unique in a
`std::map`; on lists with duplicated keys the first binding wins). -/
def mapFind {α β : Type} [DecidableEq α] (k : α) : List (α × β) → Option β
  | [] => none
  | p :: rest => if p.1 = k then some p.2 else mapFind k rest

/-- Association-list overwrite-or-insert, modelling assignment through
`std::map::operator[]`. -/
def mapInsert {α β : Type} [DecidableEq α] (k : α) (v : β) : List (α × β) → List (α × β)
  | [] => [(k, v)]
  | p :: rest => if p.1 = k then (k, v) :: rest else p :: mapInsert k v rest

/-- Association-list removal, modelling `std::map::erase(key)` (removes every
binding of the key; in a real `std::map` there is at most one). -/
def mapErase {α β : Type} [DecidableEq α] (k : α) : List (α × β) → List (α × β)
  | [] => []
  | p :: rest => if p.1 = k then mapErase k rest else p :: mapErase k rest

/-- `base::flat_set::insert`: add the element if it is not already present. -/
def setInsert (x : Nat) (s : List Nat) : List Nat :=
  if x ∈ s then s else x :: s

/-- `base::flat_set::erase(value)`: remove the element wherever it occurs. -/
def setRemove (x : Nat) : List Nat → List Nat
  | [] => []
  | y :: rest => if y = x then setRemove x rest else y :: setRemove x rest

/-- A `content::RenderFrameHost*` as the registry sees it: the pointer value
(set membership identity) plus the three ids the source reads from it. -/
structure RenderFrameHost where
  ptr : Nat
  process_id : Int
  routing_id : Int
  frame_tree_node_id : Int
deriving DecidableEq

/-- `IoThreadClientData` (source lines 50-59): a pending flag, defaulting to
`false`, and a weak reference to the Java-side delegate, defaulting to the
empty reference. -/
structure IoThreadClientData where
  pending_association : Bool
  io_thread_client : Option Nat
deriving DecidableEq

/-- The default-constructed `IoThreadClientData`. -/
def defaultClientData : IoThreadClientData :=
  { pending_association := false, io_thread_client := none }

/-- `GetRenderFrameHostIdPair` (source lines 73-75). -/
def GetRenderFrameHostIdPair (rfh : RenderFrameHost) : Int × Int :=
  (rfh.process_id, rfh.routing_id)

/-- The data members of `RfhToIoThreadClientMap` (source lines 91-98): the
`rfh_id`-keyed map and the frame-tree-node-keyed map whose entries also carry
the occupant set of live `RenderFrameHost` pointers. -/
structure RfhToIoThreadClientMap where
  rfh_to_io_thread_client : List ((Int × Int) × IoThreadClientData)
  frame_tree_node_to_io_thread_client : List (Int × (List Nat × IoThreadClientData))
deriving DecidableEq

/-- `RfhToIoThreadClientMap::Set(pair, client)` (source lines 109-112). -/
def SetById (rfh_id : Int × Int) (client : IoThreadClientData)
    (s : RfhToIoThreadClientMap) : RfhToIoThreadClientMap :=
  { s with rfh_to_io_thread_client := mapInsert rfh_id client s.rfh_to_io_thread_client }

/-- `RfhToIoThreadClientMap::Get(pair, out)` (source lines 114-122). -/
def GetById (rfh_id : Int × Int) (s : RfhToIoThreadClientMap) : Option IoThreadClientData :=
  mapFind rfh_id s.rfh_to_io_thread_client

/-- `RfhToIoThreadClientMap::Get(frame_tree_node_id, out)` (source lines
124-132): returns only the record of the entry, not the occupant set. -/
def GetByFrameTreeNode (frame_tree_node_id : Int) (s : RfhToIoThreadClientMap) :
    Option IoThreadClientData :=
  (mapFind frame_tree_node_id s.frame_tree_node_to_io_thread_client).map (fun e => e.2)

/-- `RfhToIoThreadClientMap::Set(rfh, client)` (source lines 134-150): under
one lock, overwrite the frame-tree-node entry's record, add the frame to that
entry's occupant set, and write the id-pair entry. `operator[]` on a missing
key default-constructs the entry, hence the `getD` with the empty set and the
default record. -/
def SetByFrame (rfh : RenderFrameHost) (client : IoThreadClientData)
    (s : RfhToIoThreadClientMap) : RfhToIoThreadClientMap :=
  let n := rfh.frame_tree_node_id
  let prev := (mapFind n s.frame_tree_node_to_io_thread_client).getD ([], defaultClientData)
  { rfh_to_io_thread_client :=
      mapInsert (GetRenderFrameHostIdPair rfh) client s.rfh_to_io_thread_client,
    frame_tree_node_to_io_thread_client :=
      mapInsert n (setInsert rfh.ptr prev.1, client) s.frame_tree_node_to_io_thread_client }

/-- `RfhToIoThreadClientMap::Erase(rfh)` (source lines 152-168): under one
lock, remove the frame from its slot's occupant set, drop the whole slot entry
when the set becomes empty, and remove the id-pair entry unconditionally.
(When the slot entry was absent, `operator[]` creates a default entry whose
empty occupant set is then immediately erased again, so the net effect below
matches the source.) -/
def Erase (rfh : RenderFrameHost) (s : RfhToIoThreadClientMap) : RfhToIoThreadClientMap :=
  let n := rfh.frame_tree_node_id
  let prev := (mapFind n s.frame_tree_node_to_io_thread_client).getD ([], defaultClientData)
  let remaining := setRemove rfh.ptr prev.1
  { rfh_to_io_thread_client :=
      mapErase (GetRenderFrameHostIdPair rfh) s.rfh_to_io_thread_client,
    frame_tree_node_to_io_thread_client :=
      if remaining.isEmpty then mapErase n s.frame_tree_node_to_io_thread_client
      else mapInsert n (remaining, prev.2) s.frame_tree_node_to_io_thread_client }

/-- `Erase`'s `DCHECK(num_erased == 1)` operand (source lines 157-158): how
many elements `flat_set::erase` removed from the occupant set. -/
def EraseNumErased (rfh : RenderFrameHost) (s : RfhToIoThreadClientMap) : Nat :=
  let prev := (mapFind rfh.frame_tree_node_id
      s.frame_tree_node_to_io_thread_client).getD ([], defaultClientData)
  if rfh.ptr ∈ prev.1 then 1 else 0

/-- `ClientMapEntryUpdater::RenderFrameCreated` (source lines 197-203): build
a non-pending record wrapping the observer's delegate reference and store it
through the dual-map `Set`. -/
def RenderFrameCreated (jdelegate : Nat) (rfh : RenderFrameHost)
    (s : RfhToIoThreadClientMap) : RfhToIoThreadClientMap :=
  SetByFrame rfh { pending_association := false, io_thread_client := some jdelegate } s

/-- `ClientMapEntryUpdater::RenderFrameDeleted` (source lines 205-208). -/
def RenderFrameDeleted (rfh : RenderFrameHost) (s : RfhToIoThreadClientMap) :
    RfhToIoThreadClientMap :=
  Erase rfh s

/-- `XWalkContentsIoThreadClient::Associate` (source lines 304-308) together
with the `ClientMapEntryUpdater` constructor (source lines 186-195): attaching
a delegate to a container synthesizes a `RenderFrameCreated` event for the
container's main frame when one already exists. -/
def Associate (jdelegate : Nat) (main_frame : Option RenderFrameHost)
    (s : RfhToIoThreadClientMap) : RfhToIoThreadClientMap :=
  match main_frame with
  | some rfh => RenderFrameCreated jdelegate rfh s
  | none => s

/-- `XWalkContentsIoThreadClient::RegisterPendingContents` (source lines
295-301): write a pending record (empty delegate reference) for the main
frame's id pair, through the single-map `Set`. -/
def RegisterPendingContents (main_frame : RenderFrameHost)
    (s : RfhToIoThreadClientMap) : RfhToIoThreadClientMap :=
  SetById (GetRenderFrameHostIdPair main_frame)
    { pending_association := true, io_thread_client := none } s

/-- `XWalkContentsIoThreadClient::SubFrameCreated` (source lines 278-291):
copy the parent's record to the child id pair; when the parent has no record,
hit `NOTREACHED()` and return without writing. The boolean of the result is
`true` exactly when the `NOTREACHED()` invariant-violation path was taken. -/
def SubFrameCreated (render_process_id parent_render_frame_id child_render_frame_id : Int)
    (s : RfhToIoThreadClientMap) : RfhToIoThreadClientMap × Bool :=
  match GetById (render_process_id, parent_render_frame_id) s with
  | none => (s, true)
  | some client_data =>
      (SetById (render_process_id, child_render_frame_id) client_data s, false)

/-- Resolving a `JavaObjectWeakGlobalRef` (`get(env)`): the empty reference
resolves to `none`, and a reference whose referent has been collected (is not
in `alive`) also resolves to `none`. -/
def weakGet (w : Option Nat) (alive : List Nat) : Option Nat :=
  match w with
  | none => none
  | some d => if d ∈ alive then some d else none

/-- The `XWalkContentsIoThreadClient` handle (source lines 310-313): the
pending flag and the resolved (possibly null) Java delegate, both fixed at
construction. -/
structure XWalkContentsIoThreadClient where
  pending_association : Bool
  java_object : Option Nat
deriving DecidableEq

/-- `XWalkContentsIoThreadClient::FromID(render_process_id, render_frame_id)`
(source lines 251-263): look up the id-pair map; not-found produces no handle,
otherwise the handle snapshots the pending flag and the resolved delegate. -/
def FromID (render_process_id render_frame_id : Int) (alive : List Nat)
    (s : RfhToIoThreadClientMap) : Option XWalkContentsIoThreadClient :=
  match GetById (render_process_id, render_frame_id) s with
  | none => none
  | some client_data =>
      some { pending_association := client_data.pending_association,
             java_object := weakGet client_data.io_thread_client alive }

/-- `XWalkContentsIoThreadClient::FromID(frame_tree_node_id)` (source lines
265-275). -/
def FromFrameTreeNodeID (frame_tree_node_id : Int) (alive : List Nat)
    (s : RfhToIoThreadClientMap) : Option XWalkContentsIoThreadClient :=
  match GetByFrameTreeNode frame_tree_node_id s with
  | none => none
  | some client_data =>
      some { pending_association := client_data.pending_association,
             java_object := weakGet client_data.io_thread_client alive }

/-- The cache-mode enumeration of the handle. Modelled from the spec: the
enumerators live in `xwalk_contents_io_thread_client.h`, which is not part of
the sources; only `LOAD_DEFAULT`, the documented default, matters here, and
the remaining enumerators follow the Android cache-mode names the spec's
`LOAD_DEFAULT` belongs to. -/
inductive CacheMode where
  | LOAD_DEFAULT
  | LOAD_NORMAL
  | LOAD_CACHE_ELSE_NETWORK
  | LOAD_NO_CACHE
  | LOAD_CACHE_ONLY
deriving DecidableEq

/-- The opaque Java delegate's answers, one table per live object id: the
results of the `Java_XWalkContentsIoThreadClient_*` calls. Requests and
substituted responses are opaque ids. -/
structure DelegateBehavior where
  getCacheMode : CacheMode
  shouldInterceptRequest : Nat → Option Nat
  shouldBlockContentUrls : Bool
  shouldBlockFileUrls : Bool
  shouldBlockNetworkLoads : Bool
  shouldAcceptThirdPartyCookies : Bool

/-- `XWalkContentsIoThreadClient::GetCacheMode` (source lines 322-332): null
delegate yields `LOAD_DEFAULT` without a Java call. -/
def GetCacheMode (env : Nat → DelegateBehavior) (c : XWalkContentsIoThreadClient) : CacheMode :=
  match c.java_object with
  | none => CacheMode.LOAD_DEFAULT
  | some d => (env d).getCacheMode

/-- `XWalkContentsIoThreadClient::ShouldInterceptRequest` (source lines
334-382): null delegate yields no substituted response; the JNI string and
header marshalling around the call carries no registry state and is elided. -/
def ShouldInterceptRequest (env : Nat → DelegateBehavior)
    (c : XWalkContentsIoThreadClient) (request : Nat) : Option Nat :=
  match c.java_object with
  | none => none
  | some d => (env d).shouldInterceptRequest request

/-- `XWalkContentsIoThreadClient::ShouldBlockContentUrls` (source lines
384-392). -/
def ShouldBlockContentUrls (env : Nat → DelegateBehavior)
    (c : XWalkContentsIoThreadClient) : Bool :=
  match c.java_object with
  | none => false
  | some d => (env d).shouldBlockContentUrls

/-- `XWalkContentsIoThreadClient::ShouldBlockFileUrls` (source lines 394-402). -/
def ShouldBlockFileUrls (env : Nat → DelegateBehavior)
    (c : XWalkContentsIoThreadClient) : Bool :=
  match c.java_object with
  | none => false
  | some d => (env d).shouldBlockFileUrls

/-- `XWalkContentsIoThreadClient::ShouldBlockNetworkLoads` (source lines
404-412). -/
def ShouldBlockNetworkLoads (env : Nat → DelegateBehavior)
    (c : XWalkContentsIoThreadClient) : Bool :=
  match c.java_object with
  | none => false
  | some d => (env d).shouldBlockNetworkLoads

/-- `XWalkContentsIoThreadClient::ShouldAcceptThirdPartyCookies` (source lines
414-421). -/
def ShouldAcceptThirdPartyCookies (env : Nat → DelegateBehavior)
    (c : XWalkContentsIoThreadClient) : Bool :=
  match c.java_object with
  | none => false
  | some d => (env d).shouldAcceptThirdPartyCookies

/-- `XWalkContentsIoThreadClient::OnReceivedResponseHeaders` (source lines
423-474): whether the notification is forwarded to the Java delegate; a null
delegate makes the call return early, silently skipping the notification. -/
def OnReceivedResponseHeaders (c : XWalkContentsIoThreadClient) : Bool :=
  match c.java_object with
  | none => false
  | some _ => true

/-- One lock-protected registry mutation, at the granularity of the source's
`RfhToIoThreadClientMap` methods: each holds `map_lock_` for its whole body,
so each is one atomic transition of an interleaved history. -/
inductive RegistryAction where
  | actSetById (rfh_id : Int × Int) (client : IoThreadClientData)
  | actSetByFrame (rfh : RenderFrameHost) (client : IoThreadClientData)
  | actErase (rfh : RenderFrameHost)
deriving DecidableEq

/-- Apply one atomic registry mutation. -/
def applyAction (a : RegistryAction) (s : RfhToIoThreadClientMap) : RfhToIoThreadClientMap :=
  match a with
  | .actSetById rfh_id client => SetById rfh_id client s
  | .actSetByFrame rfh client => SetByFrame rfh client s
  | .actErase rfh => Erase rfh s

/-- Run an interleaved history of atomic registry mutations. A reader, which
itself takes `map_lock_`, can only observe `runActions pre s0` for a completed
history `pre`, never a state inside one action. -/
def runActions (acts : List RegistryAction) (s : RfhToIoThreadClientMap) :
    RfhToIoThreadClientMap :=
  acts.foldl (fun t a => applyAction a t) s

/-- One operation of the public API surface (registration, association, the
lifecycle observer's callbacks and the sub-frame fast path). -/
inductive PublicOp where
  | opRegisterPending (main_frame : RenderFrameHost)
  | opAssociate (jdelegate : Nat) (main_frame : Option RenderFrameHost)
  | opFrameCreated (jdelegate : Nat) (rfh : RenderFrameHost)
  | opFrameDeleted (rfh : RenderFrameHost)
  | opSubFrameCreated (render_process_id parent_render_frame_id child_render_frame_id : Int)
deriving DecidableEq

/-- Apply one public operation to the registry. -/
def applyPublicOp (op : PublicOp) (s : RfhToIoThreadClientMap) : RfhToIoThreadClientMap :=
  match op with
  | .opRegisterPending f => RegisterPendingContents f s
  | .opAssociate d mf => Associate d mf s
  | .opFrameCreated d f => RenderFrameCreated d f s
  | .opFrameDeleted f => RenderFrameDeleted f s
  | .opSubFrameCreated pid pa ch => (SubFrameCreated pid pa ch s).1

/-- Run a sequence of public operations. -/
def runPublicOps (ops : List PublicOp) (s : RfhToIoThreadClientMap) : RfhToIoThreadClientMap :=
  ops.foldl (fun t op => applyPublicOp op t) s

/-- The registry as lazily constructed: both maps empty. -/
def emptyRegistry : RfhToIoThreadClientMap :=
  { rfh_to_io_thread_client := [], frame_tree_node_to_io_thread_client := [] }

/-- The per-record invariant: a pending record has no delegate reference
(the property `DCHECK`ed at source lines 260 and 272). -/
def recordOkB (c : IoThreadClientData) : Bool :=
  !c.pending_association || c.io_thread_client.isNone

/-- The registry-wide invariant: every record stored in either map is
`recordOkB`. -/
def registryOkB (s : RfhToIoThreadClientMap) : Bool :=
  s.rfh_to_io_thread_client.all (fun p => recordOkB p.2) &&
  s.frame_tree_node_to_io_thread_client.all (fun q => recordOkB q.2.2)

/-- Scenario harness: add a batch of frames through the dual-map `Set`. -/
def setAll (ps : List (RenderFrameHost × IoThreadClientData))
    (s : RfhToIoThreadClientMap) : RfhToIoThreadClientMap :=
  ps.foldl (fun t p => SetByFrame p.1 p.2 t) s

/-- Scenario harness: erase a batch of frames one at a time. -/
def eraseAll (es : List RenderFrameHost) (s : RfhToIoThreadClientMap) :
    RfhToIoThreadClientMap :=
  es.foldl (fun t f => Erase f t) s

/-! ## Lemmas about the association-list map operations -/

theorem mapFind_mapInsert_self {α β : Type} [DecidableEq α] (k : α) (v : β)
    (m : List (α × β)) : mapFind k (mapInsert k v m) = some v := by
  induction m with
  | nil => simp [mapInsert, mapFind]
  | cons p rest ih =>
    by_cases h : p.1 = k
    · simp [mapInsert, h, mapFind]
    · simp [mapInsert, h, mapFind, ih]

theorem mapFind_mapInsert_ne {α β : Type} [DecidableEq α] {k q : α} (v : β)
    (m : List (α × β)) (hne : q ≠ k) :
    mapFind q (mapInsert k v m) = mapFind q m := by
  have hkq : ¬k = q := fun h => hne h.symm
  induction m with
  | nil => simp [mapInsert, mapFind, hkq]
  | cons p rest ih =>
    by_cases h : p.1 = k
    · simp [mapInsert, h, mapFind, hkq]
    · simp [mapInsert, h, mapFind, ih]

theorem mapFind_mapErase_self {α β : Type} [DecidableEq α] (k : α)
    (m : List (α × β)) : mapFind k (mapErase k m) = none := by
  induction m with
  | nil => simp [mapErase, mapFind]
  | cons p rest ih =>
    by_cases h : p.1 = k
    · simp [mapErase, h, ih]
    · simp [mapErase, h, mapFind, ih]

theorem mapFind_mapErase_ne {α β : Type} [DecidableEq α] {k q : α}
    (m : List (α × β)) (hne : q ≠ k) :
    mapFind q (mapErase k m) = mapFind q m := by
  induction m with
  | nil => simp [mapErase]
  | cons p rest ih =>
    by_cases h : p.1 = k
    · have hkq : ¬k = q := fun hc => hne hc.symm
      simp [mapErase, h, mapFind, hkq, ih]
    · simp [mapErase, h, mapFind, ih]

theorem mapInsert_mapInsert_same {α β : Type} [DecidableEq α] (k : α) (v : β)
    (m : List (α × β)) :
    mapInsert k v (mapInsert k v m) = mapInsert k v m := by
  induction m with
  | nil => simp [mapInsert]
  | cons p rest ih =>
    by_cases h : p.1 = k
    · simp [mapInsert, h]
    · simp [mapInsert, h, ih]

theorem mapFind_some_mem {α β : Type} [DecidableEq α] {k : α} {v : β}
    {m : List (α × β)} (h : mapFind k m = some v) : (k, v) ∈ m := by
  induction m with
  | nil => simp [mapFind] at h
  | cons p rest ih =>
    rcases p with ⟨a, b⟩
    by_cases hp : a = k
    · subst hp
      simp [mapFind] at h
      simp [h]
    · simp [mapFind, hp] at h
      exact List.mem_cons_of_mem _ (ih h)

theorem mem_mapInsert {α β : Type} [DecidableEq α] {k : α} {v : β}
    {m : List (α × β)} {p : α × β} (h : p ∈ mapInsert k v m) :
    p = (k, v) ∨ p ∈ m := by
  induction m with
  | nil => simpa [mapInsert] using h
  | cons q rest ih =>
    by_cases hq : q.1 = k
    · simp [mapInsert, hq] at h
      rcases h with h | h
      · exact Or.inl h
      · exact Or.inr (List.mem_cons_of_mem _ h)
    · simp [mapInsert, hq] at h
      rcases h with h | h
      · exact Or.inr (by simp [h])
      · rcases ih h with h2 | h2
        · exact Or.inl h2
        · exact Or.inr (List.mem_cons_of_mem _ h2)

theorem mem_mapErase {α β : Type} [DecidableEq α] {k : α}
    {m : List (α × β)} {p : α × β} (h : p ∈ mapErase k m) : p ∈ m := by
  induction m with
  | nil => simp [mapErase] at h
  | cons q rest ih =>
    by_cases hq : q.1 = k
    · simp [mapErase, hq] at h
      exact List.mem_cons_of_mem _ (ih h)
    · simp [mapErase, hq] at h
      rcases h with h | h
      · simp [h]
      · exact List.mem_cons_of_mem _ (ih h)

/-! ## Lemmas about the occupant-set operations -/

theorem mem_setInsert {x y : Nat} {s : List Nat} :
    x ∈ setInsert y s ↔ x = y ∨ x ∈ s := by
  unfold setInsert
  by_cases h : y ∈ s
  · simp [h]
    intro hx
    subst hx
    exact h
  · simp [h]

theorem nodup_setInsert {y : Nat} {s : List Nat} (h : s.Nodup) :
    (setInsert y s).Nodup := by
  unfold setInsert
  by_cases hm : y ∈ s
  · simp only [hm, if_true]
    exact h
  · simp only [hm, if_false]
    exact List.Nodup.cons hm h

theorem setRemove_cons (y z : Nat) (rest : List Nat) :
    setRemove y (z :: rest) =
      if z = y then setRemove y rest else z :: setRemove y rest := rfl

theorem mem_setRemove {x y : Nat} {s : List Nat} :
    x ∈ setRemove y s ↔ x ∈ s ∧ x ≠ y := by
  induction s with
  | nil => simp [setRemove]
  | cons z rest ih =>
    rw [setRemove_cons]
    by_cases hz : z = y
    · subst hz
      rw [if_pos rfl, ih]
      constructor
      · rintro ⟨h1, h2⟩
        exact ⟨List.mem_cons_of_mem _ h1, h2⟩
      · rintro ⟨h1, h2⟩
        rcases List.mem_cons.mp h1 with h3 | h3
        · exact absurd h3 h2
        · exact ⟨h3, h2⟩
    · rw [if_neg hz]
      constructor
      · intro h
        rcases List.mem_cons.mp h with h1 | h1
        · subst h1
          exact ⟨List.mem_cons_self _ _, hz⟩
        · rcases ih.mp h1 with ⟨h2, h3⟩
          exact ⟨List.mem_cons_of_mem _ h2, h3⟩
      · rintro ⟨h1, h2⟩
        rcases List.mem_cons.mp h1 with h3 | h3
        · subst h3
          exact List.mem_cons_self _ _
        · exact List.mem_cons_of_mem _ (ih.mpr ⟨h3, h2⟩)

theorem setRemove_eq_nil_iff {y : Nat} {s : List Nat} :
    setRemove y s = [] ↔ ∀ x ∈ s, x = y := by
  constructor
  · intro h x hx
    by_contra hne
    have hmem : x ∈ setRemove y s := mem_setRemove.mpr ⟨hx, hne⟩
    simp [h] at hmem
  · intro h
    rw [List.eq_nil_iff_forall_not_mem]
    intro x hx
    rcases mem_setRemove.mp hx with ⟨h1, h2⟩
    exact h2 (h x h1)

/-! ## Registry-level lemmas -/

theorem registryOkB_iff {s : RfhToIoThreadClientMap} :
    registryOkB s = true ↔
      (∀ p ∈ s.rfh_to_io_thread_client, recordOkB p.2 = true) ∧
      (∀ q ∈ s.frame_tree_node_to_io_thread_client, recordOkB q.2.2 = true) := by
  simp [registryOkB, List.all_eq_true, Bool.and_eq_true]

theorem registryOkB_SetById {rfh_id : Int × Int} {client : IoThreadClientData}
    {s : RfhToIoThreadClientMap} (hc : recordOkB client = true)
    (hs : registryOkB s = true) : registryOkB (SetById rfh_id client s) = true := by
  rw [registryOkB_iff] at hs ⊢
  refine ⟨?_, ?_⟩
  · intro p hp
    simp only [SetById] at hp
    rcases mem_mapInsert hp with h1 | h1
    · rw [h1]
      exact hc
    · exact hs.1 p h1
  · intro q hq
    simp only [SetById] at hq
    exact hs.2 q hq

theorem registryOkB_SetByFrame {rfh : RenderFrameHost} {client : IoThreadClientData}
    {s : RfhToIoThreadClientMap} (hc : recordOkB client = true)
    (hs : registryOkB s = true) : registryOkB (SetByFrame rfh client s) = true := by
  rw [registryOkB_iff] at hs ⊢
  refine ⟨?_, ?_⟩
  · intro p hp
    simp only [SetByFrame] at hp
    rcases mem_mapInsert hp with h1 | h1
    · rw [h1]
      exact hc
    · exact hs.1 p h1
  · intro q hq
    simp only [SetByFrame] at hq
    rcases mem_mapInsert hq with h1 | h1
    · rw [h1]
      exact hc
    · exact hs.2 q h1

theorem registryOkB_Erase {rfh : RenderFrameHost} {s : RfhToIoThreadClientMap}
    (hs : registryOkB s = true) : registryOkB (Erase rfh s) = true := by
  rw [registryOkB_iff] at hs ⊢
  refine ⟨?_, ?_⟩
  · intro p hp
    simp only [Erase] at hp
    exact hs.1 p (mem_mapErase hp)
  · intro q hq
    simp only [Erase] at hq
    rcases hfind : mapFind rfh.frame_tree_node_id
        s.frame_tree_node_to_io_thread_client with _ | pr
    · rw [hfind] at hq
      simp [setRemove] at hq
      exact hs.2 q (mem_mapErase hq)
    · rw [hfind] at hq
      simp only [Option.getD_some] at hq
      by_cases hrem : (setRemove rfh.ptr pr.1).isEmpty
      · rw [if_pos hrem] at hq
        exact hs.2 q (mem_mapErase hq)
      · rw [if_neg hrem] at hq
        rcases mem_mapInsert hq with h1 | h1
        · rw [h1]
          exact hs.2 (rfh.frame_tree_node_id, pr) (mapFind_some_mem hfind)
        · exact hs.2 q h1

theorem registryOkB_SubFrameCreated {render_process_id parent_render_frame_id
    child_render_frame_id : Int} {s : RfhToIoThreadClientMap}
    (hs : registryOkB s = true) :
    registryOkB (SubFrameCreated render_process_id parent_render_frame_id
      child_render_frame_id s).1 = true := by
  rcases hfind : GetById (render_process_id, parent_render_frame_id) s with _ | cd
  · simp only [SubFrameCreated, hfind]
    exact hs
  · simp only [SubFrameCreated, hfind]
    have hmem : ((render_process_id, parent_render_frame_id), cd) ∈
        s.rfh_to_io_thread_client := mapFind_some_mem hfind
    exact registryOkB_SetById ((registryOkB_iff.mp hs).1 _ hmem) hs

theorem registryOkB_applyPublicOp (op : PublicOp) {s : RfhToIoThreadClientMap}
    (hs : registryOkB s = true) : registryOkB (applyPublicOp op s) = true := by
  cases op with
  | opRegisterPending f => exact registryOkB_SetById rfl hs
  | opAssociate d mf =>
    cases mf with
    | none => exact hs
    | some f => exact registryOkB_SetByFrame rfl hs
  | opFrameCreated d f => exact registryOkB_SetByFrame rfl hs
  | opFrameDeleted f => exact registryOkB_Erase hs
  | opSubFrameCreated pid pa ch => exact registryOkB_SubFrameCreated hs

theorem registryOkB_runPublicOps (ops : List PublicOp) :
    ∀ s : RfhToIoThreadClientMap, registryOkB s = true →
      registryOkB (runPublicOps ops s) = true := by
  induction ops with
  | nil => exact fun s hs => hs
  | cons op rest ih => exact fun s hs => ih _ (registryOkB_applyPublicOp op hs)

/-! ## The claims -/

/-- Claim C2: the dual write of `SetByFrame` is atomic with respect to
concurrent readers. Each `RfhToIoThreadClientMap` method holds the single
`map_lock_` for its whole body, so a concurrent history is a sequence of
atomic `RegistryAction` transitions and a reader can only observe the state
after a completed history. In every state whose history ends with the
`SetByFrame` dual write of record `c` for frame `f`, both the `FrameIdentity`
lookup and the frame-tree-node lookup already return `c`: no observable state
has the `FrameIdentity` entry of the write without the frame-tree-node entry. -/
theorem C2_dual_write_atomic (history : List RegistryAction) (f : RenderFrameHost)
    (c : IoThreadClientData) (s0 : RfhToIoThreadClientMap) :
    GetById (GetRenderFrameHostIdPair f)
      (runActions (history ++ [RegistryAction.actSetByFrame f c]) s0) = some c ∧
    GetByFrameTreeNode f.frame_tree_node_id
      (runActions (history ++ [RegistryAction.actSetByFrame f c]) s0) = some c := by
  have hrun : runActions (history ++ [RegistryAction.actSetByFrame f c]) s0 =
      SetByFrame f c (runActions history s0) := by
    unfold runActions
    rw [List.foldl_append]
    rfl
  rw [hrun]
  refine ⟨?_, ?_⟩
  · show mapFind (GetRenderFrameHostIdPair f)
      (mapInsert (GetRenderFrameHostIdPair f) c
        (runActions history s0).rfh_to_io_thread_client) = some c
    exact mapFind_mapInsert_self _ _ _
  · show (mapFind f.frame_tree_node_id
      (mapInsert f.frame_tree_node_id
        (setInsert f.ptr ((mapFind f.frame_tree_node_id
          (runActions history s0).frame_tree_node_to_io_thread_client).getD
            ([], defaultClientData)).1, c)
        (runActions history s0).frame_tree_node_to_io_thread_client)).map
      (fun e => e.2) = some c
    rw [mapFind_mapInsert_self]
    rfl

/-- Claim C3: in every registry state reachable from the empty registry by
the public operations, each stored record with `pending_association = true`
has an absent delegate reference; and `pending_association = false` does not
require the delegate to be present, witnessed by a reachable state whose
identity lookup yields a non-pending handle with an absent (collected)
delegate. -/
theorem C3_pending_implies_no_delegate :
    (∀ ops : List PublicOp, registryOkB (runPublicOps ops emptyRegistry) = true) ∧
    (∃ (ops : List PublicOp) (pid fid : Int) (alive : List Nat)
        (c : XWalkContentsIoThreadClient),
      FromID pid fid alive (runPublicOps ops emptyRegistry) = some c ∧
      c.pending_association = false ∧ c.java_object = none) := by
  refine ⟨fun ops => registryOkB_runPublicOps ops emptyRegistry rfl, ?_⟩
  refine ⟨[PublicOp.opFrameCreated 7 ⟨1, 2, 3, 4⟩], 2, 3, [],
    ⟨false, none⟩, ?_, rfl, rfl⟩
  decide

/-- Claim C4: `SubFrameCreated` with a known parent copies the parent's
record to the child identity without taking the invariant-violation path, and
with an unknown parent takes the `NOTREACHED()` invariant-violation path and
leaves the registry unchanged (in particular, writes no child entry). -/
theorem C4_subframe_copies_parent_or_fails (render_process_id
    parent_render_frame_id child_render_frame_id : Int)
    (s : RfhToIoThreadClientMap) :
    (∀ R : IoThreadClientData,
      GetById (render_process_id, parent_render_frame_id) s = some R →
      (SubFrameCreated render_process_id parent_render_frame_id
        child_render_frame_id s).2 = false ∧
      GetById (render_process_id, child_render_frame_id)
        (SubFrameCreated render_process_id parent_render_frame_id
          child_render_frame_id s).1 = some R) ∧
    (GetById (render_process_id, parent_render_frame_id) s = none →
      (SubFrameCreated render_process_id parent_render_frame_id
        child_render_frame_id s).2 = true ∧
      (SubFrameCreated render_process_id parent_render_frame_id
        child_render_frame_id s).1 = s) := by
  refine ⟨?_, ?_⟩
  · intro R hR
    unfold SubFrameCreated
    rw [hR]
    refine ⟨rfl, ?_⟩
    show mapFind (render_process_id, child_render_frame_id)
      (mapInsert (render_process_id, child_render_frame_id) R
        s.rfh_to_io_thread_client) = some R
    exact mapFind_mapInsert_self _ _ _
  · intro hnone
    unfold SubFrameCreated
    rw [hnone]
    exact ⟨rfl, rfl⟩

/-- Witness for C4 at concrete inputs: a registry holding a record for frame
(1, 5) propagates it to child id 7, and the empty registry triggers the
invariant-violation path without mutation. -/
theorem C4_subframe_copies_parent_or_fails_witness :
    ((SubFrameCreated 1 5 7 (RegisterPendingContents ⟨0, 1, 5, 9⟩ emptyRegistry)).2 = false ∧
     GetById (1, 7) (SubFrameCreated 1 5 7
       (RegisterPendingContents ⟨0, 1, 5, 9⟩ emptyRegistry)).1 =
       some { pending_association := true, io_thread_client := none }) ∧
    ((SubFrameCreated 1 5 7 emptyRegistry).2 = true ∧
     (SubFrameCreated 1 5 7 emptyRegistry).1 = emptyRegistry) :=
  ⟨(C4_subframe_copies_parent_or_fails 1 5 7
      (RegisterPendingContents ⟨0, 1, 5, 9⟩ emptyRegistry)).1
      { pending_association := true, io_thread_client := none } (by decide),
   (C4_subframe_copies_parent_or_fails 1 5 7 emptyRegistry).2 (by decide)⟩

/-- Claim C5: after `RegisterPendingContents`, the identity lookup of the
container's main frame produces a handle that is pending and answers every
policy query with its fixed default: cache mode `LOAD_DEFAULT`, no
intercepted response, and all four boolean queries `false`. -/
theorem C5_register_pending_defaults (main_frame : RenderFrameHost)
    (s : RfhToIoThreadClientMap) (alive : List Nat)
    (env : Nat → DelegateBehavior) (request : Nat) :
    ∃ c : XWalkContentsIoThreadClient,
      FromID main_frame.process_id main_frame.routing_id alive
        (RegisterPendingContents main_frame s) = some c ∧
      c.pending_association = true ∧
      GetCacheMode env c = CacheMode.LOAD_DEFAULT ∧
      ShouldInterceptRequest env c request = none ∧
      ShouldBlockContentUrls env c = false ∧
      ShouldBlockFileUrls env c = false ∧
      ShouldBlockNetworkLoads env c = false ∧
      ShouldAcceptThirdPartyCookies env c = false := by
  refine ⟨⟨true, none⟩, ?_, rfl, rfl, rfl, rfl, rfl, rfl, rfl⟩
  have h : GetById (main_frame.process_id, main_frame.routing_id)
      (RegisterPendingContents main_frame s) =
      some { pending_association := true, io_thread_client := none } := by
    show mapFind (main_frame.process_id, main_frame.routing_id)
      (mapInsert (GetRenderFrameHostIdPair main_frame)
        { pending_association := true, io_thread_client := none }
        s.rfh_to_io_thread_client) = some _
    exact mapFind_mapInsert_self _ _ _
  unfold FromID
  rw [h]
  rfl

/-- Claim C6: a handle whose resolved delegate is absent answers every policy
query with its fixed default for every delegate environment (so the delegate
is never consulted), and the received-response-headers notification is
silently skipped. -/
theorem C6_absent_delegate_defaults (c : XWalkContentsIoThreadClient)
    (env : Nat → DelegateBehavior) (request : Nat)
    (h : c.java_object = none) :
    GetCacheMode env c = CacheMode.LOAD_DEFAULT ∧
    ShouldInterceptRequest env c request = none ∧
    ShouldBlockContentUrls env c = false ∧
    ShouldBlockFileUrls env c = false ∧
    ShouldBlockNetworkLoads env c = false ∧
    ShouldAcceptThirdPartyCookies env c = false ∧
    OnReceivedResponseHeaders c = false := by
  rcases c with ⟨p, j⟩
  obtain rfl : j = none := h
  exact ⟨rfl, rfl, rfl, rfl, rfl, rfl, rfl⟩

/-- Witness for C6 at a concrete handle and delegate environment. -/
theorem C6_absent_delegate_defaults_witness :
    GetCacheMode (fun _ => ⟨CacheMode.LOAD_NO_CACHE, fun r => some r, true, true, true, true⟩)
      ⟨false, none⟩ = CacheMode.LOAD_DEFAULT ∧
    ShouldInterceptRequest (fun _ => ⟨CacheMode.LOAD_NO_CACHE, fun r => some r, true, true, true, true⟩)
      ⟨false, none⟩ 11 = none ∧
    ShouldBlockContentUrls (fun _ => ⟨CacheMode.LOAD_NO_CACHE, fun r => some r, true, true, true, true⟩)
      ⟨false, none⟩ = false ∧
    ShouldBlockFileUrls (fun _ => ⟨CacheMode.LOAD_NO_CACHE, fun r => some r, true, true, true, true⟩)
      ⟨false, none⟩ = false ∧
    ShouldBlockNetworkLoads (fun _ => ⟨CacheMode.LOAD_NO_CACHE, fun r => some r, true, true, true, true⟩)
      ⟨false, none⟩ = false ∧
    ShouldAcceptThirdPartyCookies (fun _ => ⟨CacheMode.LOAD_NO_CACHE, fun r => some r, true, true, true, true⟩)
      ⟨false, none⟩ = false ∧
    OnReceivedResponseHeaders ⟨false, none⟩ = false :=
  C6_absent_delegate_defaults ⟨false, none⟩
    (fun _ => ⟨CacheMode.LOAD_NO_CACHE, fun r => some r, true, true, true, true⟩) 11 rfl

/-- Claim C7: `Associate` on a container that already has a primary frame
synthesizes the frame-created event at attach time, so an immediate identity
lookup of that frame returns a handle bound to the delegate with the pending
flag false. -/
theorem C7_associate_existing_main_frame (jdelegate : Nat)
    (f1 : RenderFrameHost) (s : RfhToIoThreadClientMap) (alive : List Nat)
    (halive : jdelegate ∈ alive) :
    FromID f1.process_id f1.routing_id alive (Associate jdelegate (some f1) s) =
      some { pending_association := false, java_object := some jdelegate } := by
  have h : GetById (f1.process_id, f1.routing_id)
      (Associate jdelegate (some f1) s) =
      some { pending_association := false, io_thread_client := some jdelegate } := by
    show mapFind (f1.process_id, f1.routing_id)
      (mapInsert (GetRenderFrameHostIdPair f1)
        { pending_association := false, io_thread_client := some jdelegate }
        s.rfh_to_io_thread_client) = some _
    exact mapFind_mapInsert_self _ _ _
  unfold FromID
  rw [h]
  simp [weakGet, halive]

/-- Witness for C7 at a concrete delegate, frame and registry. -/
theorem C7_associate_existing_main_frame_witness :
    FromID 2 3 [5] (Associate 5 (some ⟨1, 2, 3, 4⟩) emptyRegistry) =
      some { pending_association := false, java_object := some 5 } :=
  C7_associate_existing_main_frame 5 ⟨1, 2, 3, 4⟩ emptyRegistry [5] (by decide)

/-- Claim C8: writing the same record to the same identity twice through
`SetById` leaves the registry observationally equal (through both lookup
operations) to writing it once. -/
theorem C8_set_by_identity_idempotent (rfh_id : Int × Int)
    (client : IoThreadClientData) (s : RfhToIoThreadClientMap) :
    (∀ q : Int × Int,
      GetById q (SetById rfh_id client (SetById rfh_id client s)) =
      GetById q (SetById rfh_id client s)) ∧
    (∀ n : Int,
      GetByFrameTreeNode n (SetById rfh_id client (SetById rfh_id client s)) =
      GetByFrameTreeNode n (SetById rfh_id client s)) := by
  refine ⟨?_, ?_⟩
  · intro q
    show mapFind q (mapInsert rfh_id client (mapInsert rfh_id client
      s.rfh_to_io_thread_client)) = mapFind q (mapInsert rfh_id client
      s.rfh_to_io_thread_client)
    rw [mapInsert_mapInsert_same]
  · intro n
    rfl

/-- Claim C9: `RegisterPendingContents` writes only the identity map: the
frame-tree-node map is untouched, so a frame-tree-node lookup that was
not-found stays not-found while the identity lookup returns the pending
record. -/
theorem C9_register_pending_only_identity_map (main_frame : RenderFrameHost)
    (s : RfhToIoThreadClientMap)
    (h : GetByFrameTreeNode main_frame.frame_tree_node_id s = none) :
    (RegisterPendingContents main_frame s).frame_tree_node_to_io_thread_client =
      s.frame_tree_node_to_io_thread_client ∧
    GetByFrameTreeNode main_frame.frame_tree_node_id
      (RegisterPendingContents main_frame s) = none ∧
    GetById (GetRenderFrameHostIdPair main_frame)
      (RegisterPendingContents main_frame s) =
      some { pending_association := true, io_thread_client := none } := by
  refine ⟨rfl, h, ?_⟩
  show mapFind (GetRenderFrameHostIdPair main_frame)
    (mapInsert (GetRenderFrameHostIdPair main_frame)
      { pending_association := true, io_thread_client := none }
      s.rfh_to_io_thread_client) = some _
  exact mapFind_mapInsert_self _ _ _

/-- Witness for C9 at a concrete frame and the empty registry. -/
theorem C9_register_pending_only_identity_map_witness :
    (RegisterPendingContents ⟨1, 2, 3, 4⟩ emptyRegistry).frame_tree_node_to_io_thread_client =
      emptyRegistry.frame_tree_node_to_io_thread_client ∧
    GetByFrameTreeNode 4 (RegisterPendingContents ⟨1, 2, 3, 4⟩ emptyRegistry) = none ∧
    GetById (2, 3) (RegisterPendingContents ⟨1, 2, 3, 4⟩ emptyRegistry) =
      some { pending_association := true, io_thread_client := none } :=
  C9_register_pending_only_identity_map ⟨1, 2, 3, 4⟩ emptyRegistry (by decide)

/-- Claim C10: `SubFrameCreated` copies a pending parent record verbatim: a
parent record with the pending flag set and an absent delegate is written
unchanged under the child identity instead of being treated as not-found. -/
theorem C10_pending_parent_propagates (render_process_id
    parent_render_frame_id child_render_frame_id : Int)
    (s : RfhToIoThreadClientMap) (c : IoThreadClientData)
    (hparent : GetById (render_process_id, parent_render_frame_id) s = some c)
    (hpending : c.pending_association = true)
    (hclient : c.io_thread_client = none) :
    (SubFrameCreated render_process_id parent_render_frame_id
      child_render_frame_id s).2 = false ∧
    GetById (render_process_id, child_render_frame_id)
      (SubFrameCreated render_process_id parent_render_frame_id
        child_render_frame_id s).1 =
      some { pending_association := true, io_thread_client := none } := by
  rcases c with ⟨p, j⟩
  obtain rfl : p = true := hpending
  obtain rfl : j = none := hclient
  unfold SubFrameCreated
  rw [hparent]
  refine ⟨rfl, ?_⟩
  show mapFind (render_process_id, child_render_frame_id)
    (mapInsert (render_process_id, child_render_frame_id)
      { pending_association := true, io_thread_client := none }
      s.rfh_to_io_thread_client) = some _
  exact mapFind_mapInsert_self _ _ _

/-- Witness for C10 at a concrete pending parent. -/
theorem C10_pending_parent_propagates_witness :
    (SubFrameCreated 1 5 7 (RegisterPendingContents ⟨0, 1, 5, 9⟩ emptyRegistry)).2 = false ∧
    GetById (1, 7) (SubFrameCreated 1 5 7
      (RegisterPendingContents ⟨0, 1, 5, 9⟩ emptyRegistry)).1 =
      some { pending_association := true, io_thread_client := none } :=
  C10_pending_parent_propagates 1 5 7
    (RegisterPendingContents ⟨0, 1, 5, 9⟩ emptyRegistry)
    { pending_association := true, io_thread_client := none }
    (by decide) rfl rfl

/-! ## Lemmas for the occupant-set accounting scenario -/

theorem isEmpty_false_of_mem {x : Nat} {l : List Nat} (h : x ∈ l) :
    l.isEmpty = false := by
  cases l with
  | nil => simp at h
  | cons a t => rfl

theorem GetByFrameTreeNode_eq_some {n : Int} {s : RfhToIoThreadClientMap}
    {S : List Nat} {r : IoThreadClientData}
    (h : mapFind n s.frame_tree_node_to_io_thread_client = some (S, r)) :
    GetByFrameTreeNode n s = some r := by
  simp [GetByFrameTreeNode, h]

theorem GetByFrameTreeNode_eq_none {n : Int} {s : RfhToIoThreadClientMap}
    (h : mapFind n s.frame_tree_node_to_io_thread_client = none) :
    GetByFrameTreeNode n s = none := by
  simp [GetByFrameTreeNode, h]

theorem mapFind_of_GetByFrameTreeNode_none {n : Int} {s : RfhToIoThreadClientMap}
    (h : GetByFrameTreeNode n s = none) :
    mapFind n s.frame_tree_node_to_io_thread_client = none := by
  rcases hm : mapFind n s.frame_tree_node_to_io_thread_client with _ | pr
  · rfl
  · simp [GetByFrameTreeNode, hm] at h

theorem SetByFrame_ftn_mapFind {f : RenderFrameHost} {n : Int}
    (c : IoThreadClientData) (s : RfhToIoThreadClientMap)
    (hn : f.frame_tree_node_id = n) :
    mapFind n (SetByFrame f c s).frame_tree_node_to_io_thread_client =
      some (setInsert f.ptr ((mapFind n s.frame_tree_node_to_io_thread_client).getD
        ([], defaultClientData)).1, c) := by
  subst hn
  simp only [SetByFrame]
  exact mapFind_mapInsert_self _ _ _

theorem Erase_ftn_mapFind_none {n : Int} (e : RenderFrameHost)
    {s : RfhToIoThreadClientMap} (hn : e.frame_tree_node_id = n)
    (hrem : setRemove e.ptr ((mapFind n s.frame_tree_node_to_io_thread_client).getD
      ([], defaultClientData)).1 = []) :
    mapFind n (Erase e s).frame_tree_node_to_io_thread_client = none := by
  subst hn
  simp only [Erase]
  rw [hrem]
  simp [mapFind_mapErase_self]

theorem Erase_ftn_mapFind_some {n : Int} (e : RenderFrameHost)
    {s : RfhToIoThreadClientMap} {S : List Nat} {r : IoThreadClientData}
    (hn : e.frame_tree_node_id = n)
    (hfind : mapFind n s.frame_tree_node_to_io_thread_client = some (S, r))
    (hne : (setRemove e.ptr S).isEmpty = false) :
    mapFind n (Erase e s).frame_tree_node_to_io_thread_client =
      some (setRemove e.ptr S, r) := by
  subst hn
  simp only [Erase]
  rw [hfind]
  simp only [Option.getD_some]
  rw [if_neg (by simp [hne])]
  exact mapFind_mapInsert_self _ _ _

theorem setAll_ftn_from_some (n : Int) :
    ∀ (qs : List (RenderFrameHost × IoThreadClientData))
      (s : RfhToIoThreadClientMap) (S0 : List Nat) (r0 : IoThreadClientData),
    (∀ p ∈ qs, p.1.frame_tree_node_id = n) →
    mapFind n s.frame_tree_node_to_io_thread_client = some (S0, r0) →
    S0.Nodup →
    ∃ S : List Nat,
      mapFind n (setAll qs s).frame_tree_node_to_io_thread_client =
        some (S, qs.foldl (fun _ p => p.2) r0) ∧
      S.Nodup ∧
      (∀ x, x ∈ S ↔ (x ∈ S0 ∨ x ∈ qs.map (fun p => p.1.ptr))) := by
  intro qs
  induction qs with
  | nil =>
    intro s S0 r0 hftn hfind hnodup
    exact ⟨S0, by simpa using hfind, hnodup, by simp⟩
  | cons q rest ih =>
    intro s S0 r0 hftn hfind hnodup
    have hq : q.1.frame_tree_node_id = n := hftn q (by simp)
    have hstep : mapFind n
        (SetByFrame q.1 q.2 s).frame_tree_node_to_io_thread_client =
        some (setInsert q.1.ptr S0, q.2) := by
      rw [SetByFrame_ftn_mapFind q.2 s hq, hfind]
      rfl
    obtain ⟨S, hS, hSn, hSm⟩ := ih (SetByFrame q.1 q.2 s) (setInsert q.1.ptr S0) q.2
      (fun p hp => hftn p (List.mem_cons_of_mem _ hp)) hstep (nodup_setInsert hnodup)
    refine ⟨S, hS, hSn, ?_⟩
    intro x
    rw [hSm x, mem_setInsert]
    simp only [List.map_cons, List.mem_cons]
    tauto

theorem setAll_ftn_from_none (n : Int) (q0 : RenderFrameHost × IoThreadClientData)
    (qs : List (RenderFrameHost × IoThreadClientData))
    (s : RfhToIoThreadClientMap)
    (hftn : ∀ p ∈ q0 :: qs, p.1.frame_tree_node_id = n)
    (h0 : mapFind n s.frame_tree_node_to_io_thread_client = none) :
    ∃ S : List Nat,
      mapFind n (setAll (q0 :: qs) s).frame_tree_node_to_io_thread_client =
        some (S, qs.foldl (fun _ p => p.2) q0.2) ∧
      S.Nodup ∧
      (∀ x, x ∈ S ↔ x ∈ (q0 :: qs).map (fun p => p.1.ptr)) := by
  have hq : q0.1.frame_tree_node_id = n := hftn q0 (by simp)
  have hstep : mapFind n
      (SetByFrame q0.1 q0.2 s).frame_tree_node_to_io_thread_client =
      some ([q0.1.ptr], q0.2) := by
    rw [SetByFrame_ftn_mapFind q0.2 s hq, h0]
    simp [setInsert]
  obtain ⟨S, hS, hSn, hSm⟩ := setAll_ftn_from_some n qs (SetByFrame q0.1 q0.2 s)
    [q0.1.ptr] q0.2 (fun p hp => hftn p (List.mem_cons_of_mem _ hp)) hstep (by simp)
  refine ⟨S, hS, hSn, ?_⟩
  intro x
  rw [hSm x]
  simp [List.mem_cons]

theorem eraseAll_ftn (n : Int) (r : IoThreadClientData) :
    ∀ (es : List RenderFrameHost) (e : RenderFrameHost)
      (s : RfhToIoThreadClientMap) (S : List Nat),
    (∀ f ∈ e :: es, f.frame_tree_node_id = n) →
    ((e :: es).map RenderFrameHost.ptr).Nodup →
    mapFind n s.frame_tree_node_to_io_thread_client = some (S, r) →
    (∀ x, x ∈ S ↔ x ∈ (e :: es).map RenderFrameHost.ptr) →
    (∀ k, k + 1 < (e :: es).length →
      GetByFrameTreeNode n (eraseAll ((e :: es).take (k + 1)) s) = some r) ∧
    GetByFrameTreeNode n (eraseAll (e :: es) s) = none := by
  intro es
  induction es with
  | nil =>
    intro e s S hftn hnodup hfind hmem
    refine ⟨?_, ?_⟩
    · intro k hk
      simp at hk
    · have he : e.frame_tree_node_id = n := hftn e (by simp)
      have hsole : ∀ x ∈ S, x = e.ptr := fun x hx => by
        simpa using (hmem x).mp hx
      have hrem : setRemove e.ptr
          ((mapFind n s.frame_tree_node_to_io_thread_client).getD
            ([], defaultClientData)).1 = [] := by
        rw [hfind]
        exact setRemove_eq_nil_iff.mpr hsole
      exact GetByFrameTreeNode_eq_none (Erase_ftn_mapFind_none e he hrem)
  | cons e2 rest ih =>
    intro e s S hftn hnodup hfind hmem
    have he : e.frame_tree_node_id = n := hftn e (by simp)
    have hnodup' := hnodup
    simp only [List.map_cons] at hnodup'
    have hnotin : e.ptr ∉ (e2.ptr :: rest.map RenderFrameHost.ptr) :=
      (List.nodup_cons.mp hnodup').1
    have hnodup2 : (e2.ptr :: rest.map RenderFrameHost.ptr).Nodup :=
      (List.nodup_cons.mp hnodup').2
    have hmem_rem : ∀ x, x ∈ setRemove e.ptr S ↔
        x ∈ (e2 :: rest).map RenderFrameHost.ptr := by
      intro x
      rw [mem_setRemove]
      constructor
      · rintro ⟨hxS, hxne⟩
        have hx := (hmem x).mp hxS
        simp only [List.map_cons, List.mem_cons] at hx ⊢
        rcases hx with h1 | h1
        · exact absurd h1 hxne
        · exact h1
      · intro hx
        refine ⟨(hmem x).mpr ?_, ?_⟩
        · simp only [List.map_cons, List.mem_cons] at hx ⊢
          exact Or.inr hx
        · intro hxe
          apply hnotin
          rw [← hxe]
          simpa using hx
    have hre2 : e2.ptr ∈ setRemove e.ptr S := (hmem_rem e2.ptr).mpr (by simp)
    have hremne : (setRemove e.ptr S).isEmpty = false := isEmpty_false_of_mem hre2
    have hstep := Erase_ftn_mapFind_some e he hfind hremne
    obtain ⟨ih1, ih2⟩ := ih e2 (Erase e s) (setRemove e.ptr S)
      (fun f hf => hftn f (List.mem_cons_of_mem _ hf)) hnodup2 hstep hmem_rem
    refine ⟨?_, ih2⟩
    intro k hk
    cases k with
    | zero =>
      show GetByFrameTreeNode n (Erase e s) = some r
      exact GetByFrameTreeNode_eq_some hstep
    | succ j =>
      have hk' : j + 1 < (e2 :: rest).length := by
        simp only [List.length_cons] at hk ⊢
        omega
      exact ih1 j hk'

/-- Claim C1: occupant-set accounting. First part: when frames sharing one
frame-tree-node id are added through the dual-map `SetByFrame` into a registry
with no entry for that id and then erased one at a time (the erased frames
carrying exactly the pointers of the added frames), the frame-tree-node lookup
returns the record of the last `SetByFrame` after each erase except the last,
and not-found after the last. Second part: for a frame that was its slot's
sole occupant, after `Erase` both the lookup by its `FrameIdentity` pair and
the lookup by its frame-tree-node id return not-found. -/
theorem C1_occupant_set_accounting :
    (∀ (n : Int) (p0 : RenderFrameHost × IoThreadClientData)
       (ps : List (RenderFrameHost × IoThreadClientData))
       (e0 : RenderFrameHost) (es : List RenderFrameHost)
       (s0 : RfhToIoThreadClientMap),
      (∀ p ∈ p0 :: ps, p.1.frame_tree_node_id = n) →
      (∀ f ∈ e0 :: es, f.frame_tree_node_id = n) →
      ((e0 :: es).map RenderFrameHost.ptr).Nodup →
      (∀ x, x ∈ (e0 :: es).map RenderFrameHost.ptr ↔
        x ∈ (p0 :: ps).map (fun p => p.1.ptr)) →
      GetByFrameTreeNode n s0 = none →
      (∀ k, k + 1 < (e0 :: es).length →
        GetByFrameTreeNode n (eraseAll ((e0 :: es).take (k + 1))
          (setAll (p0 :: ps) s0)) = some (ps.foldl (fun _ p => p.2) p0.2)) ∧
      GetByFrameTreeNode n (eraseAll (e0 :: es) (setAll (p0 :: ps) s0)) = none) ∧
    (∀ (F : RenderFrameHost) (s : RfhToIoThreadClientMap) (S : List Nat)
       (r : IoThreadClientData),
      mapFind F.frame_tree_node_id s.frame_tree_node_to_io_thread_client =
        some (S, r) →
      (∀ x ∈ S, x = F.ptr) →
      GetByFrameTreeNode F.frame_tree_node_id (Erase F s) = none ∧
      GetById (GetRenderFrameHostIdPair F) (Erase F s) = none) := by
  refine ⟨?_, ?_⟩
  · intro n p0 ps e0 es s0 hftnp hftne hnodup hmem h0
    have h0' : mapFind n s0.frame_tree_node_to_io_thread_client = none :=
      mapFind_of_GetByFrameTreeNode_none h0
    obtain ⟨S, hS, hSn, hSm⟩ := setAll_ftn_from_none n p0 ps s0 hftnp h0'
    have hmem2 : ∀ x, x ∈ S ↔ x ∈ (e0 :: es).map RenderFrameHost.ptr :=
      fun x => (hSm x).trans (hmem x).symm
    exact eraseAll_ftn n _ es e0 (setAll (p0 :: ps) s0) S hftne hnodup hS hmem2
  · intro F s S r hfind hsole
    have hrem : setRemove F.ptr ((mapFind F.frame_tree_node_id
        s.frame_tree_node_to_io_thread_client).getD ([], defaultClientData)).1 = [] := by
      rw [hfind]
      exact setRemove_eq_nil_iff.mpr hsole
    refine ⟨GetByFrameTreeNode_eq_none (Erase_ftn_mapFind_none F rfl hrem), ?_⟩
    show mapFind (GetRenderFrameHostIdPair F) (mapErase (GetRenderFrameHostIdPair F)
      s.rfh_to_io_thread_client) = none
    exact mapFind_mapErase_self _ _

/-- Witness for C1: two frames with pointers 1 and 2 share frame-tree-node 4;
after erasing the first the node lookup still returns the last-written record,
after erasing the second it is not-found; and a sole-occupant frame leaves
both lookups not-found after its erase. -/
theorem C1_occupant_set_accounting_witness :
    (GetByFrameTreeNode 4 (eraseAll ([⟨1, 1, 1, 4⟩, ⟨2, 1, 2, 4⟩].take 1)
      (setAll [(⟨1, 1, 1, 4⟩, ⟨false, some 7⟩), (⟨2, 1, 2, 4⟩, ⟨false, some 8⟩)]
        emptyRegistry)) = some ⟨false, some 8⟩) ∧
    (GetByFrameTreeNode 4 (eraseAll [⟨1, 1, 1, 4⟩, ⟨2, 1, 2, 4⟩]
      (setAll [(⟨1, 1, 1, 4⟩, ⟨false, some 7⟩), (⟨2, 1, 2, 4⟩, ⟨false, some 8⟩)]
        emptyRegistry)) = none) ∧
    (GetByFrameTreeNode 4 (Erase ⟨1, 1, 1, 4⟩
      (setAll [(⟨1, 1, 1, 4⟩, ⟨false, some 7⟩)] emptyRegistry)) = none) ∧
    (GetById (1, 1) (Erase ⟨1, 1, 1, 4⟩
      (setAll [(⟨1, 1, 1, 4⟩, ⟨false, some 7⟩)] emptyRegistry)) = none) := by
  have h1 := C1_occupant_set_accounting.1 4 (⟨1, 1, 1, 4⟩, ⟨false, some 7⟩)
    [(⟨2, 1, 2, 4⟩, ⟨false, some 8⟩)] ⟨1, 1, 1, 4⟩ [⟨2, 1, 2, 4⟩] emptyRegistry
    (by decide) (by decide) (by decide) (fun x => Iff.rfl) rfl
  have h2 := C1_occupant_set_accounting.2 ⟨1, 1, 1, 4⟩
    (setAll [(⟨1, 1, 1, 4⟩, ⟨false, some 7⟩)] emptyRegistry) [1] ⟨false, some 7⟩
    (by decide) (by decide)
  exact ⟨h1.1 0 (by decide), h1.2, h2.1, h2.2⟩
